import Mathlib

/-!
Shallow embedding of the data pipeline of `src/app.py`:

* `process_world_bank_data` (lines 26-40): cleaning of the World Bank JSON
  envelope into a sorted record set, embedded together with the pandas /
  Python exception behaviour (`Except PyError`).
* `load_data` (lines 44-59): the HTTP fetch wrapper with its status check
  and error notices (`st.error` calls are modelled as the list of emitted
  notice strings).
* `filtered_df` (lines 113-116), `growth_df` (lines 187-191) and `df_map`
  (line 218): the three derived views.

Python floats are modelled by `PFloat`: an exact rational, a signed
infinity, or NaN — the values `json.loads` can produce (a JSON numeral that
overflows float64, such as `1e999`, and the non-standard `Infinity`/`NaN`
constants arrive as the infinite/NaN cases).  A cleaned `Value` cell is an
`FVal` (finite or infinite, never NaN): `to_numeric` results that are NaN
are modelled as the missing state `Option.none`, which is exactly what
line 38 (`dropna`) removes.  Missing cells (pandas `NaN`) are modelled as
`Option.none`, JSON `null` stored in a cell as `some Json.null` (the two
differ in Python truthiness, which line 34 depends on).

Modelling notes (deviations that no theorem below depends on):
* finite floats are exact rationals: 53-bit rounding is not modelled, and a
  finite decimal value string too large for float64 (about `1e309`, which
  `to_numeric` would overflow to `inf`) stays a huge finite rational — the
  infinities that the program produces from the strings `inf`/`infinity`
  and from `json.loads` overflow are modelled faithfully;
* underscores accepted by `int()` / `float()` are not modelled;
* `pd.DataFrame` applied to a second envelope element that is neither a
  sequence of mappings nor `null` is collapsed to an error value (the real
  library raises `ValueError`/`TypeError` or produces a frame without the
  `country` column, which line 34 then turns into a `KeyError`);
* `sort_values` over a column mixing strings with other types of length at
  least 2 is modelled as `TypeError` (CPython raises on such comparisons).
-/

/-- Rational division built directly from `mkRat` so that it reduces in the
kernel (`Rat.div` is `irreducible`); proved equal to `·/·` below. -/
def ratDiv (a b : ℚ) : ℚ :=
  if 0 ≤ b.num then mkRat (a.num * (b.den : Int)) (a.den * b.num.natAbs)
  else mkRat (-(a.num * (b.den : Int))) (a.den * b.num.natAbs)

/-- Rational subtraction built from `mkRat`; proved equal to `·-·` below. -/
def ratSub (a b : ℚ) : ℚ :=
  mkRat (a.num * (b.den : Int) - b.num * (a.den : Int)) (a.den * b.den)

/-- Rational multiplication built from `mkRat`; proved equal to `·*·` below. -/
def ratMul (a b : ℚ) : ℚ :=
  mkRat (a.num * b.num) (a.den * b.den)

/-- IEEE-754 double values as produced by the numpy arithmetic of line 191:
either a finite value (modelled exactly as a rational), an infinity, or NaN.
Signed zero is not distinguished. -/
inductive PFloat where
  | finite (q : ℚ)
  | posInf
  | negInf
  | nan
deriving DecidableEq

/-- IEEE division; a finite value divided by zero gives a signed infinity
(or NaN for 0/0), which is what numpy does on line 191. -/
def PFloat.div : PFloat → PFloat → PFloat
  | .nan, _ => .nan
  | _, .nan => .nan
  | .finite a, .finite b =>
      if b.num = 0 then
        if a.num = 0 then .nan
        else if 0 < a.num then .posInf
        else .negInf
      else .finite (ratDiv a b)
  | .finite _, .posInf => .finite 0
  | .finite _, .negInf => .finite 0
  | .posInf, .finite b => if 0 ≤ b.num then .posInf else .negInf
  | .negInf, .finite b => if 0 ≤ b.num then .negInf else .posInf
  | .posInf, .posInf => .nan
  | .posInf, .negInf => .nan
  | .negInf, .posInf => .nan
  | .negInf, .negInf => .nan

/-- IEEE subtraction restricted to the shapes reachable on line 191. -/
def PFloat.sub : PFloat → PFloat → PFloat
  | .nan, _ => .nan
  | _, .nan => .nan
  | .finite a, .finite b => .finite (ratSub a b)
  | .posInf, .finite _ => .posInf
  | .negInf, .finite _ => .negInf
  | .finite _, .posInf => .negInf
  | .finite _, .negInf => .posInf
  | .posInf, .posInf => .nan
  | .posInf, .negInf => .posInf
  | .negInf, .posInf => .negInf
  | .negInf, .negInf => .nan

/-- IEEE multiplication. -/
def PFloat.mul : PFloat → PFloat → PFloat
  | .nan, _ => .nan
  | _, .nan => .nan
  | .finite a, .finite b => .finite (ratMul a b)
  | .posInf, .finite b =>
      if b.num = 0 then .nan else if 0 < b.num then .posInf else .negInf
  | .negInf, .finite b =>
      if b.num = 0 then .nan else if 0 < b.num then .negInf else .posInf
  | .finite a, .posInf =>
      if a.num = 0 then .nan else if 0 < a.num then .posInf else .negInf
  | .finite a, .negInf =>
      if a.num = 0 then .nan else if 0 < a.num then .negInf else .posInf
  | .posInf, .posInf => .posInf
  | .posInf, .negInf => .negInf
  | .negInf, .posInf => .negInf
  | .negInf, .negInf => .posInf

/-- A float value that can appear in a cleaned `Value` cell: a finite value
or a signed infinity.  NaN is excluded by construction of the pipeline: a
NaN coercion result is modelled as the missing state `Option.none`, which
`dropna` (line 38) removes, so no NaN survives into a record. -/
inductive FVal where
  | finite (q : ℚ)
  | posInf
  | negInf
deriving DecidableEq

/-- The IEEE value of a cleaned cell value. -/
def FVal.toPFloat : FVal → PFloat
  | .finite q => .finite q
  | .posInf => .posInf
  | .negInf => .negInf

/-- JSON values as returned by `response.json()`, i.e. after Python's
`json.loads`: numbers are already Python ints/floats, so a numeric literal
that overflows float64 (such as `1e999`) or a non-standard
`Infinity`/`NaN` constant arrives here as an infinite or NaN `PFloat`.  A
JSON object is a list of key/value pairs where, as in a Python `dict`, a
later binding for the same key wins. -/
inductive Json where
  | null
  | bool (b : Bool)
  | num (x : PFloat)
  | str (s : String)
  | arr (elems : List Json)
  | obj (fields : List (String × Json))

/-- Python exception kinds that the pipeline of `app.py` can raise. -/
inductive PyError where
  | keyError (key : String)
  | valueError
  | typeError
  | attributeError
  | overflowError
deriving DecidableEq

/-- Whether a JSON value is a string (used to model which pandas object
columns `sort_values` can compare). -/
def Json.isStr : Json → Bool
  | .str _ => true
  | _ => false

/-- Line 191: `Total_Growth = (Final_Value / Initial_Value - 1) * 100`,
performed in float arithmetic with the division left unguarded. -/
def total_growth (finalValue initialValue : FVal) : PFloat :=
  ((finalValue.toPFloat.div initialValue.toPFloat).sub
    (PFloat.finite 1)).mul (PFloat.finite 100)

/-- Value of a list of decimal digit characters. -/
def digitsVal (cs : List Char) : Nat :=
  cs.foldl (fun acc c => acc * 10 + (c.toNat - 48)) 0

/-- All characters are decimal digits. -/
def allDigits (cs : List Char) : Bool := cs.all Char.isDigit

/-- Strip leading and trailing whitespace, as Python `int()`/`float()` do. -/
def trimChars (cs : List Char) : List Char :=
  ((cs.dropWhile Char.isWhitespace).reverse.dropWhile Char.isWhitespace).reverse

/-- Python `int(s)` on a string: optional sign followed by digits, else a
`ValueError` (modelled as `none`).  Digit-group underscores are not
modelled. -/
def pyInt? (s : String) : Option Int :=
  match trimChars s.toList with
  | '-' :: r => if r.isEmpty || !allDigits r then none else some (-(digitsVal r : Int))
  | '+' :: r => if r.isEmpty || !allDigits r then none else some ((digitsVal r : Int))
  | cs => if cs.isEmpty || !allDigits cs then none else some ((digitsVal cs : Int))

/-- Leading digit span of a character list. -/
def spanDigits (cs : List Char) : List Char × List Char :=
  (cs.takeWhile Char.isDigit, cs.dropWhile Char.isDigit)

/-- Scale a mantissa by `10 ^ e` with the sign of the exponent given
separately (kernel-computable scientific notation). -/
def applyExp (mant : ℚ) (negExp : Bool) (e : Nat) : ℚ :=
  if negExp then mkRat mant.num (mant.den * 10 ^ e)
  else mkRat (mant.num * ((10 ^ e : Nat) : Int)) mant.den

/-- Exponent suffix of a float literal (after the `e`/`E`). -/
def expPart? (mant : ℚ) (r : List Char) : Option ℚ :=
  match r with
  | '-' :: rr => if rr.isEmpty || !allDigits rr then none else some (applyExp mant true (digitsVal rr))
  | '+' :: rr => if rr.isEmpty || !allDigits rr then none else some (applyExp mant false (digitsVal rr))
  | rr => if rr.isEmpty || !allDigits rr then none else some (applyExp mant false (digitsVal rr))

/-- Case-insensitive comparison of a character list against a lowercase
keyword (used for the `inf`/`infinity`/`nan` spellings the float parser
accepts). -/
def lowerEq (cs : List Char) (target : List Char) : Bool :=
  cs.map Char.toLower == target

/-- Numeric-string parsing as performed by `pd.to_numeric`: optional sign,
then either an `inf`/`infinity` spelling (any case — these yield a signed
infinity, and the row survives `dropna`), a `nan` spelling (NaN, i.e.
`none`, dropped later), or digits with optional fractional part and
exponent.  A string that does not parse yields `none` (coerced to NaN by
`errors='coerce'`). -/
def pyFloat? (s : String) : Option FVal :=
  match trimChars s.toList with
  | [] => none
  | t =>
    let (sgnNeg, t1) : Bool × List Char :=
      match t with
      | '-' :: r => (true, r)
      | '+' :: r => (false, r)
      | _ => (false, t)
    if lowerEq t1 (("inf").toList) || lowerEq t1 (("infinity").toList) then
      some (if sgnNeg then FVal.negInf else FVal.posInf)
    else if lowerEq t1 (("nan").toList) then none
    else
      let (ip, rest1) := spanDigits t1
      let (fp, rest2) : List Char × List Char :=
        match rest1 with
        | '.' :: r => spanDigits r
        | _ => ([], rest1)
      if ip.isEmpty && fp.isEmpty then none
      else
        let mantNat : Nat := digitsVal ip * 10 ^ fp.length + digitsVal fp
        let mant : ℚ :=
          if sgnNeg then mkRat (-(mantNat : Int)) (10 ^ fp.length)
          else mkRat ((mantNat : Int)) (10 ^ fp.length)
        match rest2 with
        | [] => some (FVal.finite mant)
        | 'e' :: r => (expPart? mant r).map FVal.finite
        | 'E' :: r => (expPart? mant r).map FVal.finite
        | _ => none

/-- Truncation toward zero, as numpy `astype(int)` does on floats. -/
def ratTrunc (q : ℚ) : Int :=
  if 0 ≤ q.num then ((q.num.natAbs / q.den : Nat) : Int)
  else -((q.num.natAbs / q.den : Nat) : Int)

/-- The cell of a data-frame row for a column: `none` models the `NaN` that
pandas stores when the row's mapping lacks the key; `some Json.null` models
a stored Python `None`.  A later duplicate key wins, as in a `dict`. -/
def cellOf (row : List (String × Json)) (key : String) : Option Json :=
  row.reverse.lookup key

/-- A data frame built from a list of mappings has a column for a key iff
some row carries that key; otherwise access is a `KeyError` (line 34ff). -/
def hasCol (rows : List (List (String × Json))) (key : String) : Bool :=
  rows.any (fun row => (cellOf row key).isSome)

/-- Convert a stored JSON `null` to Python `None` (`Option.none`). -/
def denull : Option Json → Option Json
  | some Json.null => none
  | some (Json.bool b) => some (Json.bool b)
  | some (Json.num q) => some (Json.num q)
  | some (Json.str s) => some (Json.str s)
  | some (Json.arr xs) => some (Json.arr xs)
  | some (Json.obj kvs) => some (Json.obj kvs)
  | none => none

/-- Python `x.get(key)` on a dict: the stored value, or `None` when the key
is absent or the stored value is JSON `null`. -/
def jsonGet (kvs : List (String × Json)) (key : String) : Option Json :=
  denull (kvs.reverse.lookup key)

/-- Line 34: `x.get('value') if x else None` applied to a `country` cell.
A missing cell is the float `NaN`, which is truthy, so `.get` raises
`AttributeError`; a falsy cell (`None`, `0`, `''`, `[]`, `{}`, `False`)
yields `None`; a truthy non-dict raises `AttributeError`. -/
def countryNameCell : Option Json → Except PyError (Option Json)
  | none => .error .attributeError
  | some Json.null => .ok none
  | some (Json.obj kvs) => if kvs.isEmpty then .ok none else .ok (jsonGet kvs ("value"))
  | some (Json.str s) => if s.toList.isEmpty then .ok none else .error .attributeError
  | some (Json.num x) => if x = PFloat.finite 0 then .ok none else .error .attributeError
  | some (Json.bool b) => if b then .error .attributeError else .ok none
  | some (Json.arr xs) => if xs.isEmpty then .ok none else .error .attributeError

/-- Line 36: `df_raw['date'].astype(int)` on one cell.  A missing cell
(`NaN`) or a non-numeric string raises (`ValueError`); `None`, lists and
dicts raise `TypeError`; finite floats truncate, infinite ones raise
(`OverflowError`) and NaN raises (`ValueError`). -/
def astypeInt : Option Json → Except PyError Int
  | none => .error .valueError
  | some Json.null => .error .typeError
  | some (Json.str s) =>
      match pyInt? s with
      | some n => .ok n
      | none => .error .valueError
  | some (Json.num x) =>
      match x with
      | PFloat.finite q => .ok (ratTrunc q)
      | PFloat.posInf => .error .overflowError
      | PFloat.negInf => .error .overflowError
      | PFloat.nan => .error .valueError
  | some (Json.bool b) => .ok (if b then 1 else 0)
  | some (Json.arr _) => .error .typeError
  | some (Json.obj _) => .error .typeError

/-- Line 37: `pd.to_numeric(df_raw['value'], errors='coerce')` on one cell.
A float passes through (NaN stays NaN, i.e. `none`; infinities survive);
unparseable scalars coerce to NaN; lists and dicts still raise `TypeError`
despite `errors='coerce'`. -/
def toNumericCell : Option Json → Except PyError (Option FVal)
  | none => .ok none
  | some Json.null => .ok none
  | some (Json.num x) =>
      match x with
      | PFloat.finite q => .ok (some (FVal.finite q))
      | PFloat.posInf => .ok (some FVal.posInf)
      | PFloat.negInf => .ok (some FVal.negInf)
      | PFloat.nan => .ok none
  | some (Json.bool b) => .ok (some (FVal.finite (if b then 1 else 0)))
  | some (Json.str s) => .ok (pyFloat? s)
  | some (Json.arr _) => .error .typeError
  | some (Json.obj _) => .error .typeError

/-- Rows of `pd.DataFrame(x)` when every element of the list `x` is a
mapping. -/
def objRows? : List Json → Option (List (List (String × Json)))
  | [] => some []
  | Json.obj kvs :: rest =>
    match objRows? rest with
    | some rows => some (kvs :: rows)
    | none => none
  | _ :: _ => none

/-- Line 31: `pd.DataFrame(raw_data[1])`.  A list of mappings gives rows;
`null` gives the empty frame (like `pd.DataFrame(None)`); anything else is
collapsed to an error (see the modelling notes). -/
def asRows : Json → Except PyError (List (List (String × Json)))
  | Json.arr elems =>
    match objRows? elems with
    | some rows => .ok rows
    | none => .error .typeError
  | Json.null => .ok []
  | _ => .error .valueError

/-- Column-wise effectful map: pandas evaluates a whole column at a time, so
the first failing cell of a column aborts with that column's exception. -/
def mapE {α β : Type} (f : α → Except PyError β) : List α → Except PyError (List β)
  | [] => .ok []
  | x :: xs =>
    match f x with
    | .error e => .error e
    | .ok y =>
      match mapE f xs with
      | .error e => .error e
      | .ok ys => .ok (y :: ys)

/-- A cleaned record of `df_clean` (line 33): the four projected columns. -/
structure Record where
  countryName : Json
  countryCode : Option Json
  year : Int
  value : FVal

/-- Line 38: `.dropna(subset=['Value', 'CountryName'])` applied to the four
parallel columns; a row survives iff both its name and its value are
non-null. -/
def dropnaZip : List (Option Json) → List (Option Json) → List Int → List (Option FVal) → List Record
  | some nm :: ns, c :: cs, y :: ys, some v :: vs =>
      { countryName := nm, countryCode := c, year := y, value := v } :: dropnaZip ns cs ys vs
  | _ :: ns, _ :: cs, _ :: ys, _ :: vs => dropnaZip ns cs ys vs
  | _, _, _, _ => []

/-- Sort key of a record: its name when it is a string (the only case in
which line 40 can compare two records without raising). -/
def recName (r : Record) : String :=
  match r.countryName with
  | Json.str s => s
  | _ => ""

/-- The (CountryName, Year) lexicographic order used by
`sort_values(by=['CountryName', 'Year'])` on line 40. -/
def recLE (a b : Record) : Prop :=
  recName a < recName b ∨ (recName a = recName b ∧ a.year ≤ b.year)

instance : DecidableRel recLE := fun a b => by
  unfold recLE
  infer_instance

instance : IsTotal Record recLE :=
  ⟨fun a b => by
    rcases lt_trichotomy (recName a) (recName b) with h | h | h
    · exact Or.inl (Or.inl h)
    · rcases le_total a.year b.year with hy | hy
      · exact Or.inl (Or.inr ⟨h, hy⟩)
      · exact Or.inr (Or.inr ⟨h.symm, hy⟩)
    · exact Or.inr (Or.inl h)⟩

instance : IsTrans Record recLE :=
  ⟨fun a b c hab hbc => by
    rcases hab with h1 | ⟨e1, y1⟩ <;> rcases hbc with h2 | ⟨e2, y2⟩
    · exact Or.inl (h1.trans h2)
    · exact Or.inl (lt_of_lt_of_le h1 (le_of_eq e2))
    · exact Or.inl (lt_of_le_of_lt (le_of_eq e1) h2)
    · exact Or.inr ⟨e1.trans e2, le_trans y1 y2⟩⟩

/-- Line 40: `sort_values(by=['CountryName', 'Year'])`.  Comparing a mix of
strings and non-strings raises `TypeError`; with at most one row no
comparison happens. -/
def sortStep (l : List Record) : Except PyError (List Record) :=
  if l.all (fun r => r.countryName.isStr) ∨ l.length ≤ 1 then
    .ok (List.insertionSort recLE l)
  else .error .typeError

/-- Lines 26-40, `process_world_bank_data(raw_data)`: envelope validation,
column projection/coercion, `dropna`, sort.  The `Except` layer records
which Python exception escapes, since only the envelope check is guarded. -/
def process_world_bank_data (raw : Json) : Except PyError (List Record) :=
  match raw with
  | Json.arr (_ :: second :: _) =>
    match asRows second with
    | .error e => .error e
    | .ok rows =>
      if hasCol rows ("country") then
        match mapE (fun row => countryNameCell (cellOf row ("country"))) rows with
        | .error e => .error e
        | .ok names =>
          if hasCol rows ("countryiso3code") then
            if hasCol rows ("date") then
              match mapE (fun row => astypeInt (cellOf row ("date"))) rows with
              | .error e => .error e
              | .ok years =>
                if hasCol rows ("value") then
                  match mapE (fun row => toNumericCell (cellOf row ("value"))) rows with
                  | .error e => .error e
                  | .ok values =>
                      sortStep (dropnaZip names
                        (rows.map (fun row => cellOf row ("countryiso3code"))) years values)
                else .error (.keyError ("value"))
            else .error (.keyError ("date"))
          else .error (.keyError ("countryiso3code"))
      else .error (.keyError ("country"))
  | _ => .ok []

/-- Outcome of `requests.get(url, timeout=15)` on line 48: either an HTTP
response with a status code and a parsed JSON body, or a raised
`requests.exceptions.RequestException` (timeout, DNS failure, connection
reset, and also the JSON-decode failure of `response.json()`, whose
exception class derives from `RequestException`). -/
inductive HttpOutcome where
  | response (status : Nat) (body : Json)
  | requestException (msg : String)

/-- The `st.error` notice of line 55. -/
def statusErrorMsg (code : Nat) : String :=
  "Error al conectar con la API: Código " ++ toString code

/-- The `st.error` notice of line 58. -/
def connErrorMsg (detail : String) : String :=
  "Error de conexión: " ++ detail

/-- Lines 44-59, `load_data(url)`: returns the record set together with the
list of emitted `st.error` notices.  Only `RequestException` is caught, so
an exception raised inside `process_world_bank_data` on a 200 response
propagates (the `Except.error` case). -/
def load_data : HttpOutcome → Except PyError (List Record × List String)
  | .response code body =>
    if code = 200 then
      match process_world_bank_data body with
      | .ok recs => .ok (recs, [])
      | .error e => .error e
    else .ok ([], [statusErrorMsg code])
  | .requestException msg => .ok ([], [connErrorMsg msg])

/-- Membership test of line 114, `data_df['CountryName'].isin(selected)`:
Python equality between a cell and a string is `False` unless the cell is
that string. -/
def isinStr (v : Json) (selected : List String) : Bool :=
  match v with
  | Json.str s => selected.contains s
  | _ => false

/-- Lines 113-116, `filtered_df`: rows whose name is in the selected set and
whose year is at least the start year. -/
def filtered_df (df : List Record) (selected : List String) (start_year : Int) : List Record :=
  df.filter (fun r => isinStr r.countryName selected && decide (start_year ≤ r.year))

/-- Line 218, `df_map = data_df[data_df['Year'] == map_year]`. -/
def df_map (df : List Record) (map_year : Int) : List Record :=
  df.filter (fun r => decide (r.year = map_year))

/-- One row of `growth_df` (lines 187-191). -/
structure GrowthRow where
  countryName : String
  finalValue : FVal
  initialValue : FVal
  totalGrowth : PFloat
deriving DecidableEq

/-- String order used by `groupby` to sort its keys. -/
def strLE (a b : String) : Prop := a ≤ b

instance : DecidableRel strLE := fun a b => inferInstanceAs (Decidable (a ≤ b))

instance : IsTotal String strLE := ⟨fun a b => le_total a b⟩

instance : IsTrans String strLE := ⟨fun _ _ _ => le_trans⟩

/-- The rows of one `groupby('CountryName')` group, in frame order. -/
def groupRows (df : List Record) (key : String) : List Record :=
  df.filter (fun r => recName r == key)

/-- Lines 187-191 for one group: `agg(Final_Value=('Value', 'last'),
Initial_Value=('Value', 'first'))` followed by the `Total_Growth` column. -/
def mkGrowthRow? (df : List Record) (key : String) : Option GrowthRow :=
  match groupRows df key with
  | [] => none
  | r :: rs =>
    some { countryName := key, finalValue := (rs.getLastD r).value,
           initialValue := r.value,
           totalGrowth := total_growth ((rs.getLastD r).value) (r.value) }

/-- The group keys of `groupby('CountryName')`: distinct names, sorted
ascending (`sort=True` is the pandas default). -/
def groupKeys (df : List Record) : List String :=
  List.insertionSort strLE ((df.map recName).dedup)

/-- Lines 187-191, `growth_df`: one row per distinct country. -/
def growth_df (df : List Record) : List GrowthRow :=
  (groupKeys df).filterMap (mkGrowthRow? df)

/-- The raw envelope of the end-to-end scenario: metadata page object and a
single Brazil record with string-typed year and value. -/
def brazilEnvelope : Json :=
  Json.arr [Json.obj [(("page"), Json.num (PFloat.finite 1))],
    Json.arr [Json.obj [(("country"), Json.obj [(("value"), Json.str ("Brazil"))]),
      (("countryiso3code"), Json.str ("BRA")),
      (("date"), Json.str ("2020")),
      (("value"), Json.str ("8523.1"))]]]

/-- The normalized record the Brazil envelope yields. -/
def brazilRecord : Record :=
  { countryName := Json.str ("Brazil"), countryCode := some (Json.str ("BRA")),
    year := 2020, value := FVal.finite (mkRat 85231 10) }

/-- A well-formed envelope whose single row has the non-numeric year string
`abc`; `astype(int)` raises `ValueError` on it. -/
def c1BadEnvelope : Json :=
  Json.arr [Json.num (PFloat.finite 1),
    Json.arr [Json.obj [(("country"), Json.obj [(("value"), Json.str ("Chile"))]),
      (("countryiso3code"), Json.str ("CHL")),
      (("date"), Json.str ("abc")),
      (("value"), Json.num (PFloat.finite 100))]]]

/-- An envelope whose single row has an empty-string country name and a
2-character ISO code; both survive cleaning because `dropna` only removes
nulls. -/
def c5BadEnvelope : Json :=
  Json.arr [Json.num (PFloat.finite 1),
    Json.arr [Json.obj [(("country"), Json.obj [(("value"), Json.str (""))]),
      (("countryiso3code"), Json.str ("XX")),
      (("date"), Json.str ("2000")),
      (("value"), Json.num (PFloat.finite 1))]]]

/-- An envelope whose single row has the value string `inf`: `to_numeric`
parses it to +infinity, which is not NA, so the row survives `dropna` with
a non-finite Value. -/
def c5InfEnvelope : Json :=
  Json.arr [Json.num (PFloat.finite 1),
    Json.arr [Json.obj [(("country"), Json.obj [(("value"), Json.str ("Atlantis"))]),
      (("countryiso3code"), Json.str ("ATL")),
      (("date"), Json.str ("2000")),
      (("value"), Json.str ("inf"))]]]

/-- A one-country frame whose first record has value 0 (the division-by-zero
scenario of the growth computation). -/
def zedDf : List Record :=
  [{ countryName := Json.str ("Zed"), countryCode := none, year := 2000,
     value := FVal.finite 0 },
   { countryName := Json.str ("Zed"), countryCode := none, year := 2005,
     value := FVal.finite 5 }]

/-- The growth row the zero-initial frame yields. -/
def zedGrowthRow : GrowthRow :=
  { countryName := ("Zed"), finalValue := FVal.finite 5, initialValue := FVal.finite 0,
    totalGrowth := PFloat.posInf }

/-- The single-country frame of the growth round-trip scenario:
records (2000, 100) and (2005, 150). -/
def alphaDf : List Record :=
  [{ countryName := Json.str ("Alpha"), countryCode := none, year := 2000,
     value := FVal.finite 100 },
   { countryName := Json.str ("Alpha"), countryCode := none, year := 2005,
     value := FVal.finite 150 }]


/-- `mkRat` as a field-operation quotient. -/
theorem mkRat_cast_eq (n : Int) (d : Nat) : (mkRat n d : ℚ) = (n : ℚ) / (d : ℚ) := by
  rw [Rat.mkRat_eq_divInt, Rat.divInt_eq_div]
  norm_num

theorem ratSub_eq (a b : ℚ) : ratSub a b = a - b := (Rat.sub_def' a b).symm

theorem ratMul_eq (a b : ℚ) : ratMul a b = a * b := by
  rw [ratMul, ← Rat.mkRat_self a, ← Rat.mkRat_self b, Rat.mkRat_mul_mkRat,
    Rat.mkRat_self a, Rat.mkRat_self b]

theorem ratDiv_eq (a b : ℚ) : ratDiv a b = a / b := by
  have had : ((a.den : ℚ)) ≠ 0 := by
    exact_mod_cast a.den_nz
  have hbd : ((b.den : ℚ)) ≠ 0 := by
    exact_mod_cast b.den_nz
  rcases lt_trichotomy b.num 0 with hb | hb | hb
  · rw [ratDiv, if_neg (by omega), mkRat_cast_eq]
    have hnum : ((b.num.natAbs : ℚ)) = -((b.num : ℚ)) := by
      rw [show ((b.num.natAbs : ℚ)) = (((b.num.natAbs : ℤ) : ℚ)) from (Int.cast_natCast _).symm]
      rw [Int.ofNat_natAbs_of_nonpos (le_of_lt hb)]
      push_cast
      ring
    have hbn : ((b.num : ℚ)) ≠ 0 := by
      intro hc
      exact absurd (by exact_mod_cast hc : b.num = 0) (by omega)
    push_cast
    rw [hnum]
    conv_rhs => rw [← Rat.num_div_den a, ← Rat.num_div_den b]
    field_simp
  · have hb0 : b = 0 := Rat.num_eq_zero.mp hb
    subst hb0
    rw [ratDiv, if_pos (by simp), div_zero]
    simp [mkRat_cast_eq]
  · rw [ratDiv, if_pos (le_of_lt hb), mkRat_cast_eq]
    have hnum : ((b.num.natAbs : ℚ)) = ((b.num : ℚ)) := by
      rw [show ((b.num.natAbs : ℚ)) = (((b.num.natAbs : ℤ) : ℚ)) from (Int.cast_natCast _).symm]
      rw [Int.natAbs_of_nonneg (le_of_lt hb)]
    have hbn : ((b.num : ℚ)) ≠ 0 := by
      intro hc
      exact absurd (by exact_mod_cast hc : b.num = 0) (by omega)
    push_cast
    rw [hnum]
    conv_rhs => rw [← Rat.num_div_den a, ← Rat.num_div_den b]
    field_simp


/-- For a nonzero initial value the growth formula of line 191 is the plain
rational `(final / initial - 1) * 100`. -/
theorem total_growth_eq (f i : ℚ) (hi : i ≠ 0) :
    total_growth (FVal.finite f) (FVal.finite i) = PFloat.finite ((f / i - 1) * 100) := by
  have hn : ¬ i.num = 0 := by
    simpa [Rat.num_eq_zero] using hi
  simp only [total_growth, FVal.toPFloat, PFloat.div, PFloat.sub, PFloat.mul, if_neg hn,
    ratDiv_eq, ratSub_eq, ratMul_eq]

/-- Every value of a successful column map comes from some cell. -/
theorem mapE_ok_mem {α β : Type} {f : α → Except PyError β} :
    ∀ {l : List α} {ys : List β}, mapE f l = Except.ok ys →
      ∀ y ∈ ys, ∃ x ∈ l, f x = Except.ok y := by
  intro l
  induction l with
  | nil =>
    intro ys h y hy
    simp [mapE] at h
    subst h
    simp at hy
  | cons x xs ih =>
    intro ys h y hy
    rw [mapE] at h
    cases hfx : f x with
    | error e => rw [hfx] at h; exact absurd h (by simp)
    | ok v =>
      rw [hfx] at h
      cases hrest : mapE f xs with
      | error e => rw [hrest] at h; exact absurd h (by simp)
      | ok vs =>
        rw [hrest] at h
        simp only [Except.ok.injEq] at h
        subst h
        rcases List.mem_cons.mp hy with hEq | hMem
        · exact ⟨x, List.mem_cons_self x xs, hEq ▸ hfx⟩
        · rcases ih hrest y hMem with ⟨x2, hx2, hfx2⟩
          exact ⟨x2, List.mem_cons_of_mem x hx2, hfx2⟩

/-- Every surviving record's name was one of the name cells. -/
theorem dropnaZip_mem_name :
    ∀ {ns : List (Option Json)} {cs : List (Option Json)} {ys : List Int}
      {vs : List (Option FVal)} {r : Record},
      r ∈ dropnaZip ns cs ys vs → some r.countryName ∈ ns := by
  intro ns
  induction ns with
  | nil => intro cs ys vs r h; cases cs <;> cases ys <;> cases vs <;> simp [dropnaZip] at h
  | cons n ns ih =>
    intro cs ys vs r h
    cases cs with
    | nil => simp [dropnaZip] at h
    | cons c cs =>
      cases ys with
      | nil => simp [dropnaZip] at h
      | cons y ys =>
        cases vs with
        | nil => simp [dropnaZip] at h
        | cons v vs =>
          cases n with
          | none =>
            simp only [dropnaZip] at h
            exact List.mem_cons_of_mem _ (ih h)
          | some nm =>
            cases v with
            | none =>
              simp only [dropnaZip] at h
              exact List.mem_cons_of_mem _ (ih h)
            | some vq =>
              simp only [dropnaZip, List.mem_cons] at h
              rcases h with hEq | hMem
              · subst hEq; exact List.mem_cons_self _ _
              · exact List.mem_cons_of_mem _ (ih hMem)

/-- Every surviving record's value was one of the (non-NaN) value cells. -/
theorem dropnaZip_mem_value :
    ∀ {ns : List (Option Json)} {cs : List (Option Json)} {ys : List Int}
      {vs : List (Option FVal)} {r : Record},
      r ∈ dropnaZip ns cs ys vs → some r.value ∈ vs := by
  intro ns
  induction ns with
  | nil => intro cs ys vs r h; cases cs <;> cases ys <;> cases vs <;> simp [dropnaZip] at h
  | cons n ns ih =>
    intro cs ys vs r h
    cases cs with
    | nil => simp [dropnaZip] at h
    | cons c cs =>
      cases ys with
      | nil => simp [dropnaZip] at h
      | cons y ys =>
        cases vs with
        | nil => simp [dropnaZip] at h
        | cons v vs =>
          cases n with
          | none =>
            simp only [dropnaZip] at h
            exact List.mem_cons_of_mem _ (ih h)
          | some nm =>
            cases v with
            | none =>
              simp only [dropnaZip] at h
              exact List.mem_cons_of_mem _ (ih h)
            | some vq =>
              simp only [dropnaZip, List.mem_cons] at h
              rcases h with hEq | hMem
              · subst hEq; exact List.mem_cons_self _ _
              · exact List.mem_cons_of_mem _ (ih hMem)

/-- `denull` never returns a stored `null`. -/
theorem denull_ne_null {o : Option Json} {v : Json}
    (h : denull o = some v) : v ≠ Json.null := by
  cases o with
  | none => simp [denull] at h
  | some w => cases w <;> simp [denull] at h <;> simp [← h]

/-- A name produced by the `country` lambda is never `None`-as-`null`: a
stored JSON `null` is converted to Python `None` before the record set is
built, so `dropna` removes it. -/
theorem countryNameCell_ne_null {cell : Option Json} {v : Json}
    (h : countryNameCell cell = Except.ok (some v)) : v ≠ Json.null := by
  cases cell with
  | none => simp [countryNameCell] at h
  | some w =>
    cases w with
    | null => simp [countryNameCell] at h
    | obj kvs =>
      simp only [countryNameCell] at h
      split at h
      · simp at h
      · simp only [Except.ok.injEq] at h
        exact denull_ne_null (by simpa [jsonGet] using h)
    | str s =>
      simp only [countryNameCell] at h
      split at h <;> simp_all
    | num q =>
      simp only [countryNameCell] at h
      split at h <;> simp_all
    | bool b => cases b <;> simp [countryNameCell] at h
    | arr xs =>
      simp only [countryNameCell] at h
      split at h <;> simp_all

/-- A successful sort step returns the insertion sort of its input. -/
theorem sortStep_ok {l recs : List Record}
    (h : sortStep l = Except.ok recs) : recs = List.insertionSort recLE l := by
  rw [sortStep] at h
  split at h
  · simp only [Except.ok.injEq] at h
    exact h.symm
  · exact absurd h (by simp)

/-- Shape of any successful cleaning run: the result is empty (envelope
rejected) or the insertion sort of the rows surviving `dropna`, with every
column map successful. -/
theorem process_ok_shape {raw : Json} {recs : List Record}
    (h : process_world_bank_data raw = Except.ok recs) :
    recs = [] ∨
    ∃ rows names years values,
      mapE (fun row => countryNameCell (cellOf row ("country"))) rows = Except.ok names ∧
      mapE (fun row => astypeInt (cellOf row ("date"))) rows = Except.ok years ∧
      mapE (fun row => toNumericCell (cellOf row ("value"))) rows = Except.ok values ∧
      recs = List.insertionSort recLE
        (dropnaZip names (rows.map (fun row => cellOf row ("countryiso3code"))) years values) := by
  cases raw with
  | arr elems =>
    cases elems with
    | nil => left; simpa [process_world_bank_data] using h.symm
    | cons meta rest1 =>
      cases rest1 with
      | nil => left; simpa [process_world_bank_data] using h.symm
      | cons second rest =>
        simp only [process_world_bank_data] at h
        split at h
        · exact absurd h (by simp)
        · split at h
          · split at h
            · exact absurd h (by simp)
            · split at h
              · split at h
                · split at h
                  · exact absurd h (by simp)
                  · split at h
                    · split at h
                      · exact absurd h (by simp)
                      · rename_i x3 rows heq3 hc1 x2 names hN hc2 hc3 x1 years hY hc4 x0 values hV
                        right
                        exact ⟨rows, names, years, values, hN, hY, hV, sortStep_ok h⟩
                    · exact absurd h (by simp)
                · exact absurd h (by simp)
              · exact absurd h (by simp)
          · exact absurd h (by simp)
  | null => left; simpa [process_world_bank_data] using h.symm
  | bool b => left; simpa [process_world_bank_data] using h.symm
  | num q => left; simpa [process_world_bank_data] using h.symm
  | str s => left; simpa [process_world_bank_data] using h.symm
  | obj kvs => left; simpa [process_world_bank_data] using h.symm

/-- The last element of a nonempty list via `getLastD`. -/
theorem getLast?_cons_eq {α : Type} (a : α) (l : List α) :
    (a :: l).getLast? = some (l.getLastD a) := by
  rw [List.getLast?_cons, List.getLastD_eq_getLast?]

/-- A growth row carries its group key as its name. -/
theorem mkGrowthRow?_name {df : List Record} {k : String} {g : GrowthRow}
    (h : mkGrowthRow? df k = some g) : g.countryName = k := by
  rw [mkGrowthRow?] at h
  split at h
  · exact absurd h (by simp)
  · simp only [Option.some.injEq] at h
    rw [← h]

/-- Every row of the growth summary aggregates its (nonempty) group: the
initial value is the first group row's value, the final value the last
one's, and the growth column applies the formula of line 191 to them. -/
theorem growth_df_mem_spec {df : List Record} {g : GrowthRow}
    (h : g ∈ growth_df df) :
    ∃ r rs, groupRows df g.countryName = r :: rs ∧
      g.initialValue = r.value ∧
      g.finalValue = (rs.getLastD r).value ∧
      g.totalGrowth = total_growth g.finalValue g.initialValue := by
  rcases List.mem_filterMap.mp h with ⟨k, hk, hmk⟩
  have hname : g.countryName = k := mkGrowthRow?_name hmk
  rw [mkGrowthRow?] at hmk
  split at hmk
  · exact absurd hmk (by simp)
  · rename_i r rs hg
    simp only [Option.some.injEq] at hmk
    subst hmk
    exact ⟨r, rs, hg, rfl, rfl, rfl⟩

/-- The countries of the growth summary are exactly those present in the
input frame. -/
theorem growth_df_names {df : List Record} {c : String} :
    (∃ g ∈ growth_df df, g.countryName = c) ↔ ∃ r ∈ df, recName r = c := by
  constructor
  · rintro ⟨g, hg, rfl⟩
    rcases growth_df_mem_spec hg with ⟨r, rs, hrows, _⟩
    have hr : r ∈ groupRows df g.countryName := by rw [hrows]; exact List.mem_cons_self r rs
    rcases List.mem_filter.mp hr with ⟨hmem, hbeq⟩
    exact ⟨r, hmem, eq_of_beq hbeq⟩
  · rintro ⟨r, hr, rfl⟩
    have hkmem : recName r ∈ groupKeys df := by
      rw [groupKeys, (List.perm_insertionSort strLE _).mem_iff, List.mem_dedup]
      exact List.mem_map_of_mem recName hr
    have hgrp : r ∈ groupRows df (recName r) :=
      List.mem_filter.mpr ⟨hr, beq_self_eq_true (recName r)⟩
    cases hrows : groupRows df (recName r) with
    | nil => rw [hrows] at hgrp; exact absurd hgrp (by simp)
    | cons a as =>
      refine ⟨{ countryName := recName r, finalValue := (as.getLastD a).value,
                initialValue := a.value,
                totalGrowth := total_growth ((as.getLastD a).value) (a.value) },
              List.mem_filterMap.mpr ⟨recName r, hkmem, ?_⟩, rfl⟩
      rw [mkGrowthRow?, hrows]

/-- The names of the growth rows form a sublist of the group keys. -/
theorem growth_keys_sublist (df : List Record) : ∀ (ks : List String),
    ((ks.filterMap (mkGrowthRow? df)).map GrowthRow.countryName).Sublist ks
  | [] => by simp
  | k :: ks => by
    cases hg : mkGrowthRow? df k with
    | none =>
      simp only [List.filterMap_cons, hg]
      exact (growth_keys_sublist df ks).cons k
    | some g =>
      simp only [List.filterMap_cons, hg, List.map_cons, mkGrowthRow?_name hg]
      exact (growth_keys_sublist df ks).cons₂ k

/-- The sorted distinct group keys contain no duplicates. -/
theorem groupKeys_nodup (df : List Record) : (groupKeys df).Nodup := by
  rw [groupKeys]
  exact ((List.perm_insertionSort strLE _).nodup_iff).mpr (List.nodup_dedup _)

/-- The growth summary has at most one row per country. -/
theorem growth_df_names_nodup (df : List Record) :
    ((growth_df df).map GrowthRow.countryName).Nodup := by
  rw [growth_df]
  exact (growth_keys_sublist df (groupKeys df)).nodup (groupKeys_nodup df)

/-- Claim C2, counterexample: the success branch tests `status_code == 200`,
not "any 2xx".  A 204 response whose body normalizes to a nonempty record
set still takes the error branch: one notice, empty record set. -/
theorem C2_counterexample_http204 :
    load_data (HttpOutcome.response 204 brazilEnvelope) =
      Except.ok ([], [statusErrorMsg 204]) ∧
    process_world_bank_data brazilEnvelope = Except.ok [brazilRecord] :=
  ⟨by rfl, by rfl⟩

/-- Claim C2 (amended): the fetch returns the normalized record set exactly
on status 200 (not any 2xx) when normalization succeeds; on any other
status it emits exactly one status notice and returns the empty set; on a
network-layer `RequestException` it emits exactly one connection notice and
returns the empty set; an exception raised by normalization itself on a 200
response propagates to the caller. -/
theorem C2_fetch_amended :
    (∀ (body : Json) (recs : List Record),
      process_world_bank_data body = Except.ok recs →
      load_data (HttpOutcome.response 200 body) = Except.ok (recs, [])) ∧
    (∀ (code : Nat) (body : Json), code ≠ 200 →
      load_data (HttpOutcome.response code body) = Except.ok ([], [statusErrorMsg code])) ∧
    (∀ (e : PyError) (body : Json),
      process_world_bank_data body = Except.error e →
      load_data (HttpOutcome.response 200 body) = Except.error e) ∧
    (∀ detail : String,
      load_data (HttpOutcome.requestException detail) = Except.ok ([], [connErrorMsg detail])) := by
  refine ⟨?_, ?_, ?_, ?_⟩
  · intro body recs h
    simp [load_data, h]
  · intro code body h
    simp [load_data, h]
  · intro e body h
    simp [load_data, h]
  · intro detail
    rfl

/-- Witness for the amended claim C2 at concrete inputs: a 200 response
with the Brazil body, a 500 response, a 200 response with the bad-year body
(exception propagates), and a timeout. -/
theorem C2_fetch_amended_witness :
    load_data (HttpOutcome.response 200 brazilEnvelope) = Except.ok ([brazilRecord], []) ∧
    load_data (HttpOutcome.response 500 brazilEnvelope) =
      Except.ok ([], [statusErrorMsg 500]) ∧
    load_data (HttpOutcome.response 200 c1BadEnvelope) = Except.error PyError.valueError ∧
    load_data (HttpOutcome.requestException ("timed out")) =
      Except.ok ([], [connErrorMsg ("timed out")]) :=
  ⟨C2_fetch_amended.1 brazilEnvelope [brazilRecord] (by rfl),
   C2_fetch_amended.2.1 500 brazilEnvelope (by decide),
   C2_fetch_amended.2.2.1 PyError.valueError c1BadEnvelope (by rfl),
   C2_fetch_amended.2.2.2 ("timed out")⟩

/-- Claim C5, counterexample: (a) a record with the empty-string country
name and a 2-character country code survives cleaning, because `dropna`
removes only nulls — the empty string is not NA and `countryiso3code` is
copied verbatim; (b) a record whose value string is `inf` survives with the
Value +infinity, because `to_numeric` parses `inf` to a float infinity and
`isna(inf)` is false.  This violates the non-empty-name, 3-character-code
and finite-Value parts of the claim. -/
theorem C5_counterexample_empty_name_inf_value :
    process_world_bank_data c5BadEnvelope =
      Except.ok [{ countryName := Json.str (""), countryCode := some (Json.str ("XX")),
                   year := 2000, value := FVal.finite 1 }] ∧
    process_world_bank_data c5InfEnvelope =
      Except.ok [{ countryName := Json.str ("Atlantis"),
                   countryCode := some (Json.str ("ATL")),
                   year := 2000, value := FVal.posInf }] :=
  ⟨by rfl, by rfl⟩

/-- Claim C5 (amended): every record of a successful cleaning run has a
non-null CountryName (a value the country-cell lambda actually produced), a
non-null, NaN-free Value (a successful non-null `to_numeric` coercion of
some input cell — NaN coercions are the `none` state that `dropna` removes,
and the `FVal` result type has no NaN), and an integer Year by
construction of the `astype(int)` column; but the Value may be a signed
infinity (value string `inf`, or an overflowed JSON number), the
CountryName may be the empty string, and the CountryCode is copied verbatim
from the input with no 3-character guarantee. -/
theorem C5_row_invariant_amended :
    ∀ (raw : Json) (recs : List Record), process_world_bank_data raw = Except.ok recs →
      ∀ r ∈ recs,
        r.countryName ≠ Json.null ∧
        (∃ cell, countryNameCell cell = Except.ok (some r.countryName)) ∧
        (∃ cell, toNumericCell cell = Except.ok (some r.value)) := by
  intro raw recs h r hr
  rcases process_ok_shape h with rfl | ⟨rows, names, years, values, hN, hY, hV, rfl⟩
  · simp at hr
  · have hr2 : r ∈ dropnaZip names
        (rows.map (fun row => cellOf row ("countryiso3code"))) years values :=
      (List.perm_insertionSort recLE _).mem_iff.mp hr
    rcases mapE_ok_mem hN _ (dropnaZip_mem_name hr2) with ⟨row, hrow, hcell⟩
    rcases mapE_ok_mem hV _ (dropnaZip_mem_value hr2) with ⟨rowv, hrowv, hcellv⟩
    exact ⟨countryNameCell_ne_null hcell, ⟨cellOf row ("country"), hcell⟩,
      ⟨cellOf rowv ("value"), hcellv⟩⟩

/-- Witness for the amended claim C5: the Brazil record of a successful run
has a non-null name produced by the country lambda and a non-null NaN-free
value produced by the numeric coercion. -/
theorem C5_row_invariant_amended_witness :
    brazilRecord.countryName ≠ Json.null ∧
    (∃ cell, countryNameCell cell = Except.ok (some brazilRecord.countryName)) ∧
    (∃ cell, toNumericCell cell = Except.ok (some brazilRecord.value)) :=
  C5_row_invariant_amended brazilEnvelope [brazilRecord] (by rfl) brazilRecord
    (List.mem_singleton.mpr rfl)

/-- Claim C7: the end-to-end scenario.  The raw Brazil envelope normalizes
to exactly one record; the year string parses to the integer 2020 and the
value string coerces to the float 8523.1. -/
theorem C7_end_to_end :
    process_world_bank_data brazilEnvelope =
      Except.ok [{ countryName := Json.str ("Brazil"),
                   countryCode := some (Json.str ("BRA")),
                   year := 2020, value := FVal.finite 8523.1 }] := by
  have h : (8523.1 : ℚ) = mkRat 85231 10 := by
    rw [mkRat_cast_eq]
    norm_num
  rw [h]
  rfl

/-- Evaluation of the growth formula when the initial value is zero and the
final value finite: the division produces a signed infinity or NaN, and
subtracting 1 and scaling by 100 preserve it. -/
theorem total_growth_zero_finite (f : ℚ) :
    total_growth (FVal.finite f) (FVal.finite 0) = (if f.num = 0 then PFloat.nan
      else if 0 < f.num then PFloat.posInf else PFloat.negInf) := by
  rw [total_growth]
  have hdiv : (FVal.finite f).toPFloat.div (FVal.finite 0).toPFloat =
      (if f.num = 0 then PFloat.nan
        else if 0 < f.num then PFloat.posInf else PFloat.negInf) := rfl
  rw [hdiv]
  by_cases h1 : f.num = 0
  · rw [if_pos h1]
    rfl
  · rw [if_neg h1]
    by_cases h2 : 0 < f.num
    · rw [if_pos h2]
      rfl
    · rw [if_neg h2]
      rfl

/-- The zero-initial growth formula at a final value of +infinity. -/
theorem total_growth_zero_posInf :
    total_growth FVal.posInf (FVal.finite 0) = PFloat.posInf := rfl

/-- The zero-initial growth formula at a final value of -infinity. -/
theorem total_growth_zero_negInf :
    total_growth FVal.negInf (FVal.finite 0) = PFloat.negInf := rfl

/-- Claim C3: the growth summary has one row per distinct country of the
input view (existence and no duplicates), the initial/final values are the
first/last group rows' values in the existing order, the growth column
applies the formula of line 191 — which for a nonzero initial value is
`(final/initial - 1) * 100` — and the single-country round trip
`[(2000, 100), (2005, 150)]` gives exactly `Total_Growth = 50`. -/
theorem C3_growth_summary :
    (∀ (df : List Record) (c : String),
      (∃ g ∈ growth_df df, g.countryName = c) ↔ ∃ r ∈ df, recName r = c) ∧
    (∀ df : List Record, ((growth_df df).map GrowthRow.countryName).Nodup) ∧
    (∀ (df : List Record) (g : GrowthRow), g ∈ growth_df df →
      (groupRows df g.countryName).head?.map Record.value = some g.initialValue ∧
      (groupRows df g.countryName).getLast?.map Record.value = some g.finalValue ∧
      g.totalGrowth = total_growth g.finalValue g.initialValue) ∧
    (∀ f i : ℚ, i ≠ 0 →
      total_growth (FVal.finite f) (FVal.finite i) = PFloat.finite ((f / i - 1) * 100)) ∧
    growth_df alphaDf =
      [{ countryName := ("Alpha"), finalValue := FVal.finite 150,
         initialValue := FVal.finite 100,
         totalGrowth := PFloat.finite 50 }] := by
  refine ⟨fun df c => growth_df_names, growth_df_names_nodup, ?_, total_growth_eq, by rfl⟩
  intro df g hg
  rcases growth_df_mem_spec hg with ⟨r, rs, hrows, hi, hf, ht⟩
  rw [hrows, getLast?_cons_eq]
  exact ⟨by rw [hi]; rfl, by rw [hf]; rfl, ht⟩

/-- Witness for claim C3 at the round-trip frame: the Alpha group's head
value is 100, its last value is 150, and its growth row carries the formula
value. -/
theorem C3_growth_summary_witness :
    (groupRows alphaDf ("Alpha")).head?.map Record.value = some (FVal.finite 100) ∧
    (groupRows alphaDf ("Alpha")).getLast?.map Record.value = some (FVal.finite 150) ∧
    ({ countryName := ("Alpha"), finalValue := FVal.finite 150,
       initialValue := FVal.finite 100,
       totalGrowth := PFloat.finite 50 } : GrowthRow).totalGrowth =
      total_growth (FVal.finite 150) (FVal.finite 100) := by
  have h := C3_growth_summary.2.2.1 alphaDf
    { countryName := ("Alpha"), finalValue := FVal.finite 150,
      initialValue := FVal.finite 100,
      totalGrowth := PFloat.finite 50 } (by decide)
  exact ⟨h.1, h.2.1, h.2.2⟩

/-- Claim C4: a group whose initial value is 0 yields an infinite or NaN
growth value — `growth_df` is a total function (no exception), and the
result is explicitly one of the non-finite `PFloat` values, never a clamped
finite number. -/
theorem C4_division_by_zero :
    ∀ (df : List Record) (g : GrowthRow), g ∈ growth_df df →
      g.initialValue = FVal.finite 0 →
      g.totalGrowth = PFloat.posInf ∨ g.totalGrowth = PFloat.negInf ∨
        g.totalGrowth = PFloat.nan := by
  intro df g hg h0
  rcases growth_df_mem_spec hg with ⟨r, rs, hrows, hi, hf, ht⟩
  cases hq : g.finalValue with
  | finite q =>
    rw [ht, h0, hq, total_growth_zero_finite]
    by_cases h1 : q.num = 0
    · rw [if_pos h1]
      right; right; rfl
    · rw [if_neg h1]
      by_cases h2 : 0 < q.num
      · rw [if_pos h2]
        left; rfl
      · rw [if_neg h2]
        right; left; rfl
  | posInf =>
    rw [ht, h0, hq, total_growth_zero_posInf]
    left; rfl
  | negInf =>
    rw [ht, h0, hq, total_growth_zero_negInf]
    right; left; rfl

/-- Witness for claim C4: the Zed frame with initial value 0 and final
value 5 produces a non-finite growth (in fact `+inf`). -/
theorem C4_division_by_zero_witness :
    zedGrowthRow.totalGrowth = PFloat.posInf ∨ zedGrowthRow.totalGrowth = PFloat.negInf ∨
      zedGrowthRow.totalGrowth = PFloat.nan :=
  C4_division_by_zero zedDf zedGrowthRow (by decide) (by rfl)

/-- Claim C6: every successful cleaning run is sorted non-decreasing by
(CountryName, Year); the country/start-year filter preserves that order;
and in a sorted frame each country's rows are pairwise non-decreasing in
year (the property the first/last aggregation relies on). -/
theorem C6_sort_invariant :
    (∀ (raw : Json) (recs : List Record),
      process_world_bank_data raw = Except.ok recs → List.Sorted recLE recs) ∧
    (∀ (df : List Record) (selected : List String) (start_year : Int),
      List.Sorted recLE df → List.Sorted recLE (filtered_df df selected start_year)) ∧
    (∀ (l : List Record) (c : String), List.Sorted recLE l →
      List.Pairwise (fun a b => a.year ≤ b.year) (l.filter (fun r => recName r == c))) := by
  refine ⟨?_, ?_, ?_⟩
  · intro raw recs h
    rcases process_ok_shape h with rfl | ⟨rows, names, years, values, hN, hY, hV, rfl⟩
    · exact List.sorted_nil
    · exact List.sorted_insertionSort recLE _
  · intro df sel sy h
    exact h.filter _
  · intro l c h
    have h2 : List.Pairwise recLE (l.filter (fun r => recName r == c)) := h.filter _
    refine List.Pairwise.imp_of_mem ?_ h2
    intro a b ha hb hab
    have hac : recName a = c := eq_of_beq (List.mem_filter.mp ha).2
    have hbc : recName b = c := eq_of_beq (List.mem_filter.mp hb).2
    rcases hab with hlt | ⟨heq, hy⟩
    · rw [hac, hbc] at hlt
      exact absurd hlt (lt_irrefl c)
    · exact hy

/-- Witness for claim C6: the Brazil run is sorted, filtering the sorted
Alpha frame preserves sortedness, and the Alpha group is year-sorted. -/
theorem C6_sort_invariant_witness :
    List.Sorted recLE [brazilRecord] ∧
    List.Sorted recLE (filtered_df alphaDf [("Alpha")] 2000) ∧
    List.Pairwise (fun a b => a.year ≤ b.year)
      (alphaDf.filter (fun r => recName r == ("Alpha"))) := by
  have halpha : List.Sorted recLE alphaDf := by
    refine List.Pairwise.cons (fun b hb => ?_) ?_
    · rcases List.mem_singleton.mp hb with rfl
      exact Or.inr ⟨rfl, by decide⟩
    · exact List.Pairwise.cons (fun b hb => absurd hb (List.not_mem_nil b)) List.Pairwise.nil
  exact ⟨C6_sort_invariant.1 brazilEnvelope [brazilRecord] (by rfl),
         C6_sort_invariant.2.1 alphaDf [("Alpha")] 2000 halpha,
         C6_sort_invariant.2.2 alphaDf ("Alpha") halpha⟩

/-- Claim C8: the filtered view holds exactly the records whose name is a
member of the selected set and whose year is at least the start year, and
the empty selection yields the empty view without error. -/
theorem C8_filtered_view :
    (∀ (df : List Record) (selected : List String) (start_year : Int) (r : Record),
      r ∈ filtered_df df selected start_year ↔
        r ∈ df ∧ (∃ s, r.countryName = Json.str s ∧ s ∈ selected) ∧ start_year ≤ r.year) ∧
    (∀ (df : List Record) (start_year : Int), filtered_df df [] start_year = []) := by
  constructor
  · intro df sel sy r
    rw [filtered_df, List.mem_filter, Bool.and_eq_true, decide_eq_true_eq]
    constructor
    · rintro ⟨hmem, hin, hyear⟩
      refine ⟨hmem, ?_, hyear⟩
      cases hn : r.countryName with
      | str s =>
        rw [hn] at hin
        rw [isinStr] at hin
        exact ⟨s, rfl, List.elem_iff.mp hin⟩
      | null => rw [hn] at hin; simp [isinStr] at hin
      | bool b => rw [hn] at hin; simp [isinStr] at hin
      | num q => rw [hn] at hin; simp [isinStr] at hin
      | arr xs => rw [hn] at hin; simp [isinStr] at hin
      | obj kvs => rw [hn] at hin; simp [isinStr] at hin
    · rintro ⟨hmem, ⟨s, hns, hsel⟩, hy⟩
      refine ⟨hmem, ?_, hy⟩
      rw [hns, isinStr]
      exact List.elem_iff.mpr hsel
  · intro df sy
    rw [filtered_df]
    rw [List.filter_eq_nil_iff]
    intro r hr
    cases hn : r.countryName <;> simp [isinStr, hn]

/-- Claim C9: the map snapshot holds exactly the records of the full
normalized set whose year equals the selected map year; the definition
takes no country subset or start-year argument, so it is independent of the
filter used by the other views. -/
theorem C9_map_snapshot :
    ∀ (df : List Record) (map_year : Int) (r : Record),
      r ∈ df_map df map_year ↔ r ∈ df ∧ r.year = map_year := by
  intro df y r
  rw [df_map, List.mem_filter, decide_eq_true_eq]

/-- Claim C10: the country/start-year filter is idempotent. -/
theorem C10_filter_idempotent :
    ∀ (df : List Record) (selected : List String) (start_year : Int),
      filtered_df (filtered_df df selected start_year) selected start_year =
        filtered_df df selected start_year := by
  intro df sel sy
  rw [filtered_df, filtered_df, List.filter_filter]
  simp [Bool.and_self]
